import Mathlib

/-!
Verification development for the aha-kit cache-population layer
(stores/redis.js, stores/inAppLru.js, stores/index.js).

The JavaScript source is shallowly embedded as pure Lean functions:
Redis stores become finite-support maps from keys to optional entries,
stateful operations become explicit state passing, thrown exceptions
become explicit error components, and the interleaving of cooperating
processes (for the mutual-exclusion property) becomes a small labelled
transition system whose steps are the atomic Redis operations issued by
cacheAsideFunc.
-/

namespace AhaKit

/-! ## Store model -/

/-- Keys of the remote store (Redis) and of the local cache. -/
abbrev Key := String

/-- Pointwise update of a key-value map, as performed by a Redis SET or DEL. -/
def update {α : Type} (st : Key → Option α) (k : Key) (v : Option α) : Key → Option α :=
  fun k2 => if k2 = k then v else st k2

/-- Errors thrown by the embedded JavaScript: the AquireLockError class of
stores/redis.js versus every other Error. The retry combinator distinguishes
exactly these two shapes (allowedErrorType: AquireLockError). -/
inductive JsError where
  | aquireLockError (msg : String)
  | otherError (msg : String)
deriving DecidableEq

/-- A lease entry in the lock store: the holder secret written by SET NX PX and
the TTL it was last set with. -/
structure LeaseEntry where
  secret : String
  ttlMs : Nat
deriving DecidableEq

/-- The Redis keyspace restricted to lock entries. -/
abbrev LockStore := Key → Option LeaseEntry

/-- A cache entry in the remote data tier: marshalled bytes plus the TTL given
to SET PX. -/
structure CacheEntry (B : Type) where
  bytes : B
  ttlMs : Nat
deriving DecidableEq

/-- The Redis keyspace restricted to cached data entries. -/
abbrev DataStore (B : Type) := Key → Option (CacheEntry B)

/-- Embedding of get(unmarshallFunc) from stores/redis.js: read the raw bytes
at key and unmarshall them; a missing key unmarshalls to the absent sentinel. -/
def redisGet {B V : Type} (um : Option B → Option V) (st : DataStore B) (key : Key) : Option V :=
  um ((st key).map CacheEntry.bytes)

/-- Embedding of set(marshallFunc) from stores/redis.js: write the marshalled
value with the given TTL. -/
def redisSet {B V : Type} (m : V → B) (st : DataStore B) (key : Key) (value : V)
    (ttlMs : Nat) : DataStore B :=
  update st key (some { bytes := m value, ttlMs := ttlMs })

/-! ## simpleLock (stores/redis.js) -/

/-- Embedding of simpleLock.lockName. -/
def lockName (name : Key) : Key := "simpleLock." ++ name

/-- Result of one lock-store operation: the store afterwards and the message of
the thrown Error, if the operation threw. -/
structure LockOpResult where
  store : LockStore
  thrown : Option String

/-- Embedding of simpleLock.release: the atomic Lua script deletes the key only
when its current value equals the caller secret, and the JavaScript wrapper
throws when the script returns 0. -/
def simpleLockRelease (st : LockStore) (name secret : String) : LockOpResult :=
  match st name with
  | some entry =>
    if entry.secret = secret then
      { store := update st name none, thrown := none }
    else
      { store := st, thrown := some "release failed" }
  | none => { store := st, thrown := some "release failed" }

/-- Embedding of simpleLock.extend: the atomic Lua script re-sets the key with
the new TTL only when its current value equals the caller secret, and the
JavaScript wrapper throws when the script returns 0. -/
def simpleLockExtend (st : LockStore) (name secret : String) (ttlMs : Nat) : LockOpResult :=
  match st name with
  | some entry =>
    if entry.secret = secret then
      { store := update st name (some { secret := secret, ttlMs := ttlMs }), thrown := none }
    else
      { store := st, thrown := some "extend failed" }
  | none => { store := st, thrown := some "extend failed" }

/-- Embedding of the trySet closure inside simpleLock.aquire: SET key secret
PX ttl NX; a null reply (key already present) throws AquireLockError. -/
def trySet (st : LockStore) (lockKey secret : String) (ttlMs : Nat) :
    Except JsError LockStore :=
  match st lockKey with
  | some _ => .error (.aquireLockError "aquire failed")
  | none => .ok (update st lockKey (some { secret := secret, ttlMs := ttlMs }))

/-- The error filter simpleLock.aquire feeds to tryWithBackoffRetry:
allowedErrorType is AquireLockError, so exactly that kind is retried. -/
def aquireIsAllowed : JsError → Bool
  | .aquireLockError _ => true
  | .otherError _ => false

/-- Modelled from the spec: stores/retry.js (tryWithBackoffRetry) is not among
the provided sources, only its callers are. Following section 4.1 of the spec:
invoke the operation; on success return; on a non-matching error propagate
immediately; if the elapsed time has reached the budget, fail with the last
error; otherwise wait min(base * 2 ^ attempt + jitter, remaining budget) with
base 100 ms and retry. Attempts are indexed so that the environment can change
between them; fuel bounds the recursion and never runs out when it starts at
maxTimeMs + 1 because each wait advances elapsed time by at least 1 ms. -/
def tryWithBackoffRetryAux {E A : Type} (op : Nat → Except E A) (allowed : E → Bool)
    (jitter : Nat → Nat) (maxTimeMs attempt elapsed fuel : Nat) : Except E A :=
  match op attempt with
  | .ok a => .ok a
  | .error e =>
    if allowed e = false then .error e
    else if maxTimeMs ≤ elapsed then .error e
    else
      match fuel with
      | 0 => .error e
      | fuel2 + 1 =>
        tryWithBackoffRetryAux op allowed jitter maxTimeMs (attempt + 1)
          (elapsed + min (100 * 2 ^ attempt + jitter attempt) (maxTimeMs - elapsed)) fuel2
termination_by fuel

/-- Modelled from the spec: entry point of the bounded-duration retry executor,
starting at attempt 0 with no elapsed time. -/
def tryWithBackoffRetry {E A : Type} (op : Nat → Except E A) (allowed : E → Bool)
    (jitter : Nat → Nat) (maxTimeMs : Nat) : Except E A :=
  tryWithBackoffRetryAux op allowed jitter maxTimeMs 0 0 (maxTimeMs + 1)

/-- The handle returned by a successful simpleLock.aquire: release() and
extend(ttl) close over the lock key and the acquisition secret. They are
modelled as functions of the lock store they run against, since the store may
have been mutated by other parties in the meantime. -/
structure LockHandle where
  release : LockStore → LockOpResult
  extend : Nat → LockStore → LockOpResult

/-- Embedding of simpleLock.aquire: prefix the requested name with the lock
namespace, then drive trySet through tryWithBackoffRetry with AquireLockError
as the single retried kind; on success return the updated store and a handle
exposing release() and extend(ttl) bound to the same key and secret. The fresh
secret (random bytes plus timestamp in the source) is a parameter, and the
lock-store snapshot seen by each attempt is environment-indexed. -/
def simpleLockAquire (retryTimeoutMs : Nat) (stores : Nat → LockStore)
    (name secret : String) (ttlMs : Nat) (jitter : Nat → Nat) :
    Except JsError (LockStore × LockHandle) :=
  (tryWithBackoffRetry (fun n => trySet (stores n) (lockName name) secret ttlMs)
      aquireIsAllowed jitter retryTimeoutMs).map
    (fun st2 =>
      (st2,
       { release := fun st => simpleLockRelease st (lockName name) secret,
         extend := fun t st => simpleLockExtend st (lockName name) secret t }))

/-! ## wrapWithPessimisticSimpleLock (stores/redis.js) -/

/-- Observable lock-protocol events of one wrapWithPessimisticSimpleLock run,
in program order: acquisition, starting the renewal interval, clearing it in
the finally block, and issuing release() there. -/
inductive LockEv where
  | aquired
  | tickStarted
  | tickStopped
  | releaseIssued
deriving DecidableEq

/-- Result of one wrapWithPessimisticSimpleLock run: what the caller gets, the
lock store after cleanup, and the emitted protocol events. -/
structure WrapOutcome (V : Type) where
  result : Except JsError V
  lockStore : LockStore
  events : List LockEv

/-- Embedding of wrapWithPessimisticSimpleLock. The acquisition outcome is a
parameter (produced by simpleLockAquire); on acquisition failure the body never
runs and the error propagates with no events. Otherwise the renewal interval is
started, the body runs to its outcome, and the finally block clears the
interval and issues release() against the lock store as it stands at exit
(lockAtExit, which the environment may have changed while the body ran). The
release result is not awaited: its store effect happens but a failure is
swallowed and never reaches the caller, so the result is exactly the body
outcome. -/
def wrapWithPessimisticSimpleLock {V : Type}
    (aquireResult : Except JsError (LockStore × LockHandle))
    (bodyOutcome : Except JsError V) (lockAtExit : LockStore) : WrapOutcome V :=
  match aquireResult with
  | .error e => { result := .error e, lockStore := lockAtExit, events := [] }
  | .ok (_, handle) =>
    { result := bodyOutcome,
      lockStore := (handle.release lockAtExit).store,
      events := [.aquired, .tickStarted, .tickStopped, .releaseIssued] }

/-! ## getOrSetWithWithPessimisticLock (stores/redis.js) -/

/-- Result of the getOrSet body that getOrSetWithWithPessimisticLock runs under
the lease: the value returned, the authoritative store afterwards, and whether
funcWoArgs (the populate function) was invoked. -/
structure GetOrSetOutcome (B V : Type) where
  value : V
  store : DataStore B
  invokedPopulate : Bool

/-- Embedding of the getOrSet closure inside getOrSetWithWithPessimisticLock:
re-read the key from the authoritative store; a non-null unmarshalled value is
returned as is; otherwise the populate function runs (its result is the
populateVal parameter), the result is written with the given TTL, and it is
returned. -/
def getOrSet {B V : Type} (m : V → B) (um : Option B → Option V)
    (st : DataStore B) (key : Key) (populateVal : V) (ttlMs : Nat) : GetOrSetOutcome B V :=
  match redisGet um st key with
  | some v => { value := v, store := st, invokedPopulate := false }
  | none =>
    { value := populateVal,
      store := redisSet m st key populateVal ttlMs,
      invokedPopulate := true }

/-! ## cacheAsideFunc (stores/redis.js) -/

/-- Result of one cacheAsideFunc run: what the caller gets, the authoritative
data store afterwards, the lock keyspace afterwards, and how many times the
populate function was invoked. -/
structure CacheAsideOutcome (B V : Type) where
  result : Except JsError V
  master : DataStore B
  lockStore : LockStore
  populateInvocations : Nat

/-- Embedding of cacheAsideFunc, sequential single-caller semantics: read the
key from the replica; a non-null unmarshalled value returns immediately.
On a replica miss, getOrSetWithWithPessimisticLock runs the getOrSet body under
wrapWithPessimisticSimpleLock: acquire the lease (the lock key is the cache key
prefixed by wrapWithPessimisticSimpleLock and prefixed again inside aquire, as
in the source), run the body against the authoritative store, then release.
lockStores n is the lock keyspace seen by acquisition attempt n; lockStores 0
is the keyspace when the call starts, and with a single caller the store the
successful attempt produced is the one release runs against. -/
def cacheAsideFunc {B V : Type} (m : V → B) (um : Option B → Option V)
    (replica master : DataStore B) (lockStores : Nat → LockStore) (key : Key)
    (populateVal : V) (ttlMs retryTimeoutMs : Nat) (secret : String)
    (jitter : Nat → Nat) (lockTimeMs : Nat) : CacheAsideOutcome B V :=
  match redisGet um replica key with
  | some v =>
    { result := .ok v, master := master, lockStore := lockStores 0,
      populateInvocations := 0 }
  | none =>
    match simpleLockAquire retryTimeoutMs lockStores (lockName key) secret lockTimeMs jitter with
    | .error e =>
      { result := .error e, master := master, lockStore := lockStores 0,
        populateInvocations := 0 }
    | .ok (lockSt, handle) =>
      let body := getOrSet m um master key populateVal ttlMs
      { result := .ok body.value,
        master := body.store,
        lockStore := (handle.release lockSt).store,
        populateInvocations := if body.invokedPopulate then 1 else 0 }

/-! ## getOrSetWithOptimisticLock (stores/redis.js) -/

/-- Result of one getOrSetWithOptimisticLock run: what the caller gets (the
thrown Error message on conflict), the authoritative store as written by this
call, whether the populate function was invoked, and whether the key ended
unwatched (plain unwatch on the hit path, the catch-block unwatch on errors,
or the transaction commit which discards the watch). -/
structure OptimisticOutcome (B V : Type) where
  result : Except String V
  store : DataStore B
  invokedPopulate : Bool
  unwatched : Bool

/-- Embedding of getOrSetWithOptimisticLock: watch the key and read it; a
non-null value is returned after an unwatch, without running the populate
function. Otherwise the populate function runs, and MULTI/EXEC commits the
write only if the watched key was not changed by another writer in between
(changedDuringPopulate). A rejected commit (exec returning null) throws, the
catch block unwatches, and the error propagates with no internal retry; this
call writes nothing in that case. -/
def getOrSetWithOptimisticLock {B V : Type} (m : V → B) (um : Option B → Option V)
    (st : DataStore B) (key : Key) (populateVal : V) (ttlMs : Nat)
    (changedDuringPopulate : Bool) : OptimisticOutcome B V :=
  match redisGet um st key with
  | some v =>
    { result := .ok v, store := st, invokedPopulate := false, unwatched := true }
  | none =>
    if changedDuringPopulate then
      { result := .error "One (or more) of the watched keys has been changed",
        store := st, invokedPopulate := true, unwatched := true }
    else
      { result := .ok populateVal,
        store := redisSet m st key populateVal ttlMs,
        invokedPopulate := true, unwatched := true }

/-! ## inAppLru cacheAsideFunc (stores/inAppLru.js) -/

/-- Embedding of the inAppLru cacheAsideFunc at the granularity of the source:
the local LRU store maps keys to whatever funcWoArgs returned, which may be a
still-pending promise; a loose-equality undefined check (undefined or null)
selects the miss path; on a miss, funcWoArgs is invoked and its un-awaited
result is stored before being returned. Returns the value handed back to the
caller, the store afterwards, and whether funcWoArgs was invoked. -/
def inAppCacheAsideGen {H : Type} (store : Key → Option H) (key : Key)
    (computeResult : H) : H × (Key → Option H) × Bool :=
  match store key with
  | some h => (h, store, false)
  | none => (computeResult, update store key (some computeResult), true)

/-- Local-cache state for the handle-identity model: the store holds promise
identities (numbered handles), nextHandle numbers the next handle funcWoArgs
would create, and computeInvocations counts invocations of funcWoArgs. -/
structure InAppState where
  cache : Key → Option Nat
  nextHandle : Nat
  computeInvocations : Nat

/-- The inAppLru cacheAsideFunc in the handle-identity model: one call, where a
miss invokes funcWoArgs exactly once, producing the fresh handle nextHandle
that is stored before the underlying computation completes. Calls are atomic
with respect to one another because the source function contains no await:
in a single-threaded process, concurrent callers execute it back to back. -/
def inAppCacheAside (s : InAppState) (key : Key) : Nat × InAppState :=
  match inAppCacheAsideGen s.cache key s.nextHandle with
  | (h, cache2, invoked) =>
    (h,
     { cache := cache2,
       nextHandle := if invoked then s.nextHandle + 1 else s.nextHandle,
       computeInvocations :=
         if invoked then s.computeInvocations + 1 else s.computeInvocations })

/-- A sequence of back-to-back same-process calls for the same key, returning
the handle each caller received and the final state. -/
def inAppCalls (s : InAppState) (key : Key) : Nat → List Nat × InAppState
  | 0 => ([], s)
  | n + 1 =>
    match inAppCacheAside s key with
    | (h, s2) =>
      match inAppCalls s2 key n with
      | (hs, s3) => (h :: hs, s3)

/-- Settlement status of a promise handle, tracked by the environment: the
local cache itself never inspects it. -/
inductive HandleStatus where
  | pending
  | resolvedOk
  | rejected
deriving DecidableEq

/-- A process-local world: the cache state plus the settlement status of every
handle. -/
structure InAppWorld where
  st : InAppState
  status : Nat → HandleStatus

/-- The environment event in which the underlying computation of handle h
fails: the promise transitions to rejected. Nothing in inAppLru.js observes
promise rejection, so the cache state is untouched. -/
def rejectHandle (w : InAppWorld) (h : Nat) : InAppWorld :=
  { st := w.st,
    status := fun h2 => if h2 = h then .rejected else w.status h2 }

/-! ## redisCacheOnlyReadThrough (stores/index.js, two shipped variants) -/

/-- A JavaScript value as observed by the caller of redisCacheOnlyReadThrough:
either a proper data value, or a bare function object (the un-invoked
read-through closure returned by redisCacheReadThrough). -/
inductive JsResult (V : Type) where
  | value (v : V)
  | closure
deriving DecidableEq

/-- Embedding of the redisCacheOnlyReadThrough variant shipped next to
msgpackSnappyMarsh: redisCacheReadThrough(... inAppTtlMs 0) is invoked, which
runs the inAppLru cacheAsideFunc with the Redis orchestrator as funcWoArgs
(orchValue is the value the orchestrator resolves to; stored handles are
modelled by their resolved values); the awaited value is kept, the key is then
removed from the local store, and the value is returned. Returns the caller
value, the local store afterwards, and the number of orchestrator runs. -/
def redisCacheOnlyReadThroughCurrent {V : Type} (store : Key → Option V) (key : Key)
    (orchValue : V) : V × (Key → Option V) × Nat :=
  match inAppCacheAsideGen store key orchValue with
  | (cached, store2, invoked) =>
    (cached, update store2 key none, if invoked then 1 else 0)

/-- Embedding of the redisCacheOnlyReadThrough variant in stores/index.js: the
expression redisCacheReadThrough(... func, ttlMs, inAppTtlMs 0 ...) evaluates
to the inner arrow function and is never applied, so the orchestrator never
runs and the local cache is never consulted; isPromise of a function is false,
so nothing is awaited; removeInApp still deletes the key, and the closure
itself is returned to the caller. -/
def redisCacheOnlyReadThroughLegacy {V : Type} (store : Key → Option V) (key : Key)
    (_orchValue : V) : JsResult V × (Key → Option V) × Nat :=
  (JsResult.closure, update store key none, 0)

/-! ## Cross-process interleaving model of cacheAsideFunc (claim C1)

N cooperating processes share one authoritative store and one lock entry for a
fixed key and each run the cacheAsideFunc protocol of stores/redis.js. Each
transition is one atomic store operation. The model covers the lease protocol
operating as designed: the heartbeat of wrapWithPessimisticSimpleLock keeps
the lease alive while its holder works, so the lease neither expires nor is
stolen mid-critical-section, and the populated cache entry is within its TTL
window (no expiry event); these are the premises of the spec guarantee. -/

/-- Program counter of one process running cacheAsideFunc for the fixed key. -/
inductive Phase where
  | start
  | needLock
  | failed
  | critGet
  | critPopulate
  | critSet
  | critDone (v : Nat)
  | done (v : Nat)
deriving DecidableEq

/-- Pointwise update of the phase assignment. -/
def setPhase {n : Nat} (ph : Fin n → Phase) (i : Fin n) (p : Phase) : Fin n → Phase :=
  fun j => if j = i then p else ph j

/-- Global state of the cooperating processes: the authoritative entry for the
key (none while the value is absent), the lease entry (holder id, standing for
its unique secret), each process phase, and for the at-most-once bookkeeping a
history flag recording which processes have invoked the populate function. -/
structure CState (n : Nat) where
  master : Option Nat
  lock : Option (Fin n)
  phase : Fin n → Phase
  invoked : Fin n → Bool

/-- Interleaving semantics of cacheAsideFunc: the atomic steps any process may
take, in the order the source performs them. replica is the read-only replica
view of the key; vals i is the value process i would populate. -/
inductive CStep {n : Nat} (replica : Option Nat) (vals : Fin n → Nat) :
    CState n → CState n → Prop where
  | replicaHit (s : CState n) (i : Fin n) (v : Nat) :
      s.phase i = .start → replica = some v →
      CStep replica vals s { s with phase := setPhase s.phase i (.done v) }
  | replicaMiss (s : CState n) (i : Fin n) :
      s.phase i = .start → replica = none →
      CStep replica vals s { s with phase := setPhase s.phase i .needLock }
  | aquireOk (s : CState n) (i : Fin n) :
      s.phase i = .needLock → s.lock = none →
      CStep replica vals s
        { s with lock := some i, phase := setPhase s.phase i .critGet }
  | aquireTimeout (s : CState n) (i : Fin n) :
      s.phase i = .needLock →
      CStep replica vals s { s with phase := setPhase s.phase i .failed }
  | critHit (s : CState n) (i : Fin n) (v : Nat) :
      s.phase i = .critGet → s.master = some v →
      CStep replica vals s { s with phase := setPhase s.phase i (.critDone v) }
  | critMiss (s : CState n) (i : Fin n) :
      s.phase i = .critGet → s.master = none →
      CStep replica vals s { s with phase := setPhase s.phase i .critPopulate }
  | invokePopulate (s : CState n) (i : Fin n) :
      s.phase i = .critPopulate →
      CStep replica vals s
        { s with phase := setPhase s.phase i .critSet,
                 invoked := fun j => if j = i then true else s.invoked j }
  | writeMaster (s : CState n) (i : Fin n) :
      s.phase i = .critSet →
      CStep replica vals s
        { s with master := some (vals i),
                 phase := setPhase s.phase i (.critDone (vals i)) }
  | releaseLock (s : CState n) (i : Fin n) (v : Nat) :
      s.phase i = .critDone v →
      CStep replica vals s
        { s with lock := none, phase := setPhase s.phase i (.done v) }

/-- The initial state: no process has started, the lease is free, no populate
function has been invoked; the key may start absent or present. -/
def cInit (n : Nat) (master0 : Option Nat) : CState n :=
  { master := master0, lock := none, phase := fun _ => .start, invoked := fun _ => false }

/-- States reachable from s0 by interleaved cacheAsideFunc steps. -/
inductive CReachable {n : Nat} (replica : Option Nat) (vals : Fin n → Nat)
    (s0 : CState n) : CState n → Prop where
  | refl : CReachable replica vals s0 s0
  | step {s1 s2 : CState n} : CReachable replica vals s0 s1 →
      CStep replica vals s1 s2 → CReachable replica vals s0 s2

/-- A phase inside the lease-protected critical section of cacheAsideFunc. -/
def InCrit (p : Phase) : Prop :=
  p = .critGet ∨ p = .critPopulate ∨ p = .critSet ∨ ∃ v, p = .critDone v

/-- The inductive invariant of the protocol: the lease serialises the critical
section, populate only runs while the key is absent, an invoker either still
holds the unwritten result or the key has been populated, and at most one
process ever invokes the populate function. -/
def CInv {n : Nat} (s : CState n) : Prop :=
  (∀ i, InCrit (s.phase i) → s.lock = some i) ∧
  (∀ i, s.phase i = .critPopulate ∨ s.phase i = .critSet → s.master = none) ∧
  (∀ i, s.invoked i = true → s.phase i = .critSet ∨ s.master.isSome = true) ∧
  (∀ i j, s.invoked i = true → s.invoked j = true → i = j)

/-! ## Concrete instances used by witnesses -/

/-- A data store holding a single entry (bytes 5, TTL 50 ms) at key k. -/
def storeK5 : DataStore Nat :=
  fun k => if k = "k" then some { bytes := 5, ttlMs := 50 } else none

/-- The empty data store. -/
def storeEmptyNat : DataStore Nat := fun _ => none

/-- A lock store in which every lock key is held by the secret owner1. -/
def busyLockStore : LockStore :=
  fun _ => some { secret := "owner1", ttlMs := 5 }

/-- The empty lock store. -/
def freeLockStore : LockStore := fun _ => none

/-- The empty local cache in the handle-identity model. -/
def emptyInApp : InAppState :=
  { cache := fun _ => none, nextHandle := 0, computeInvocations := 0 }

/-- A local cache holding handle 5 at key k, one invocation so far. -/
def inAppWithK5 : InAppState :=
  { cache := fun k => if k = "k" then some 5 else none,
    nextHandle := 6, computeInvocations := 1 }

/-- A local world whose cache holds handle 5 at key k, all handles pending. -/
def worldK5 : InAppWorld :=
  { st := inAppWithK5, status := fun _ => HandleStatus.pending }

/-- The empty value-level local store. -/
def storeEmptyLocal : Key → Option Nat := fun _ => none

/-- Demonstration trace for the interleaving model: two processes, process 0
observes the replica miss. -/
def c1S0 : CState 2 := cInit 2 none

/-- Process 0 has observed the replica miss. -/
def c1S1 : CState 2 := { c1S0 with phase := setPhase c1S0.phase 0 Phase.needLock }

/-- Process 0 has acquired the lease. -/
def c1S2 : CState 2 :=
  { c1S1 with lock := some 0, phase := setPhase c1S1.phase 0 Phase.critGet }

/-- Process 0 has re-read the key under the lease and found it absent: it is
about to invoke the populate function. -/
def c1S3 : CState 2 := { c1S2 with phase := setPhase c1S2.phase 0 Phase.critPopulate }

/-! ## Theorems -/

theorem setPhase_self {n : Nat} (ph : Fin n → Phase) (i : Fin n) (p : Phase) :
    setPhase ph i p i = p := by
  simp [setPhase]

theorem setPhase_of_ne {n : Nat} (ph : Fin n → Phase) {i j : Fin n} (p : Phase)
    (h : j ≠ i) : setPhase ph i p j = ph j := by
  simp [setPhase, h]

theorem inCrit_critGet : InCrit .critGet := Or.inl rfl

theorem inCrit_critPopulate : InCrit .critPopulate := Or.inr (Or.inl rfl)

theorem inCrit_critSet : InCrit .critSet := Or.inr (Or.inr (Or.inl rfl))

theorem inCrit_critDone (v : Nat) : InCrit (.critDone v) :=
  Or.inr (Or.inr (Or.inr ⟨v, rfl⟩))

theorem cInv_cInit (n : Nat) (m0 : Option Nat) : CInv (cInit n m0) := by
  refine ⟨fun i hi => ?_, fun i hi => ?_, fun i hi => ?_, fun i j hi hj => ?_⟩
  · simp [cInit, InCrit] at hi
  · simp [cInit] at hi
  · simp [cInit] at hi
  · simp [cInit] at hi

theorem cInv_preserved {n : Nat} {replica : Option Nat} {vals : Fin n → Nat}
    {s1 s2 : CState n} (hstep : CStep replica vals s1 s2) (hinv : CInv s1) :
    CInv s2 := by
  obtain ⟨h1, h2, h3, h4⟩ := hinv
  cases hstep with
  | replicaHit i v hp hr =>
    refine ⟨fun j hj => ?_, fun j hj => ?_, fun j hj => ?_, h4⟩ <;> dsimp only at *
    · by_cases hji : j = i
      · subst hji; rw [setPhase_self] at hj; simp [InCrit] at hj
      · exact h1 j (by rwa [setPhase_of_ne _ _ hji] at hj)
    · by_cases hji : j = i
      · subst hji; rw [setPhase_self] at hj; simp at hj
      · exact h2 j (by rwa [setPhase_of_ne _ _ hji] at hj)
    · by_cases hji : j = i
      · subst hji
        rcases h3 j hj with hcs | hm
        · rw [hp] at hcs; simp at hcs
        · exact Or.inr hm
      · rw [setPhase_of_ne _ _ hji]; exact h3 j hj
  | replicaMiss i hp hr =>
    refine ⟨fun j hj => ?_, fun j hj => ?_, fun j hj => ?_, h4⟩ <;> dsimp only at *
    · by_cases hji : j = i
      · subst hji; rw [setPhase_self] at hj; simp [InCrit] at hj
      · exact h1 j (by rwa [setPhase_of_ne _ _ hji] at hj)
    · by_cases hji : j = i
      · subst hji; rw [setPhase_self] at hj; simp at hj
      · exact h2 j (by rwa [setPhase_of_ne _ _ hji] at hj)
    · by_cases hji : j = i
      · subst hji
        rcases h3 j hj with hcs | hm
        · rw [hp] at hcs; simp at hcs
        · exact Or.inr hm
      · rw [setPhase_of_ne _ _ hji]; exact h3 j hj
  | aquireOk i hp hl =>
    refine ⟨fun j hj => ?_, fun j hj => ?_, fun j hj => ?_, h4⟩ <;> dsimp only at *
    · by_cases hji : j = i
      · subst hji; rfl
      · have hcj := h1 j (by rwa [setPhase_of_ne _ _ hji] at hj)
        rw [hl] at hcj; simp at hcj
    · by_cases hji : j = i
      · subst hji; rw [setPhase_self] at hj; simp at hj
      · exact h2 j (by rwa [setPhase_of_ne _ _ hji] at hj)
    · by_cases hji : j = i
      · subst hji
        rcases h3 j hj with hcs | hm
        · rw [hp] at hcs; simp at hcs
        · exact Or.inr hm
      · rw [setPhase_of_ne _ _ hji]; exact h3 j hj
  | aquireTimeout i hp =>
    refine ⟨fun j hj => ?_, fun j hj => ?_, fun j hj => ?_, h4⟩ <;> dsimp only at *
    · by_cases hji : j = i
      · subst hji; rw [setPhase_self] at hj; simp [InCrit] at hj
      · exact h1 j (by rwa [setPhase_of_ne _ _ hji] at hj)
    · by_cases hji : j = i
      · subst hji; rw [setPhase_self] at hj; simp at hj
      · exact h2 j (by rwa [setPhase_of_ne _ _ hji] at hj)
    · by_cases hji : j = i
      · subst hji
        rcases h3 j hj with hcs | hm
        · rw [hp] at hcs; simp at hcs
        · exact Or.inr hm
      · rw [setPhase_of_ne _ _ hji]; exact h3 j hj
  | critHit i v hp hm =>
    refine ⟨fun j hj => ?_, fun j hj => ?_, fun j hj => ?_, h4⟩ <;> dsimp only at *
    · by_cases hji : j = i
      · subst hji; exact h1 j (by rw [hp]; exact inCrit_critGet)
      · exact h1 j (by rwa [setPhase_of_ne _ _ hji] at hj)
    · by_cases hji : j = i
      · subst hji; rw [setPhase_self] at hj; simp at hj
      · exact h2 j (by rwa [setPhase_of_ne _ _ hji] at hj)
    · by_cases hji : j = i
      · subst hji
        rcases h3 j hj with hcs | hmm
        · rw [hp] at hcs; simp at hcs
        · exact Or.inr hmm
      · rw [setPhase_of_ne _ _ hji]; exact h3 j hj
  | critMiss i hp hm =>
    refine ⟨fun j hj => ?_, fun j hj => ?_, fun j hj => ?_, h4⟩ <;> dsimp only at *
    · by_cases hji : j = i
      · subst hji; exact h1 j (by rw [hp]; exact inCrit_critGet)
      · exact h1 j (by rwa [setPhase_of_ne _ _ hji] at hj)
    · by_cases hji : j = i
      · exact hm
      · exact h2 j (by rwa [setPhase_of_ne _ _ hji] at hj)
    · by_cases hji : j = i
      · subst hji
        rcases h3 j hj with hcs | hmm
        · rw [hp] at hcs; simp at hcs
        · rw [hm] at hmm; simp at hmm
      · rw [setPhase_of_ne _ _ hji]; exact h3 j hj
  | invokePopulate i hp =>
    refine ⟨fun j hj => ?_, fun j hj => ?_, fun j hj => ?_, fun a b ha hb => ?_⟩ <;>
      dsimp only at *
    · by_cases hji : j = i
      · subst hji; exact h1 j (by rw [hp]; exact inCrit_critPopulate)
      · exact h1 j (by rwa [setPhase_of_ne _ _ hji] at hj)
    · by_cases hji : j = i
      · exact h2 i (Or.inl hp)
      · exact h2 j (by rwa [setPhase_of_ne _ _ hji] at hj)
    · by_cases hji : j = i
      · subst hji; exact Or.inl (setPhase_self _ _ _)
      · rw [if_neg hji] at hj
        rcases h3 j hj with hcs | hmm
        · exact Or.inl (by rw [setPhase_of_ne _ _ hji]; exact hcs)
        · exact Or.inr hmm
    · by_cases hai : a = i <;> by_cases hbi : b = i
      · rw [hai, hbi]
      · rw [if_neg hbi] at hb
        rcases h3 b hb with hcs | hmm
        · have hlb := h1 b (by rw [hcs]; exact inCrit_critSet)
          have hli := h1 i (by rw [hp]; exact inCrit_critPopulate)
          exact absurd (Option.some.inj (hlb.symm.trans hli)) hbi
        · have hmn := h2 i (Or.inl hp)
          rw [hmn] at hmm; simp at hmm
      · rw [if_neg hai] at ha
        rcases h3 a ha with hcs | hmm
        · have hla := h1 a (by rw [hcs]; exact inCrit_critSet)
          have hli := h1 i (by rw [hp]; exact inCrit_critPopulate)
          exact absurd (Option.some.inj (hla.symm.trans hli)) hai
        · have hmn := h2 i (Or.inl hp)
          rw [hmn] at hmm; simp at hmm
      · rw [if_neg hai] at ha
        rw [if_neg hbi] at hb
        exact h4 a b ha hb
  | writeMaster i hp =>
    refine ⟨fun j hj => ?_, fun j hj => ?_, fun j hj => ?_, h4⟩ <;> dsimp only at *
    · by_cases hji : j = i
      · subst hji; exact h1 j (by rw [hp]; exact inCrit_critSet)
      · exact h1 j (by rwa [setPhase_of_ne _ _ hji] at hj)
    · by_cases hji : j = i
      · subst hji; rw [setPhase_self] at hj; simp at hj
      · rw [setPhase_of_ne _ _ hji] at hj
        have hlj : s1.lock = some j := by
          rcases hj with hj2 | hj2
          · exact h1 j (by rw [hj2]; exact inCrit_critPopulate)
          · exact h1 j (by rw [hj2]; exact inCrit_critSet)
        have hli := h1 i (by rw [hp]; exact inCrit_critSet)
        exact absurd (Option.some.inj (hlj.symm.trans hli)) hji
    · exact Or.inr rfl
  | releaseLock i v hp =>
    refine ⟨fun j hj => ?_, fun j hj => ?_, fun j hj => ?_, h4⟩ <;> dsimp only at *
    · by_cases hji : j = i
      · subst hji; rw [setPhase_self] at hj; simp [InCrit] at hj
      · have hcj := h1 j (by rwa [setPhase_of_ne _ _ hji] at hj)
        have hci := h1 i (by rw [hp]; exact inCrit_critDone v)
        exact absurd (Option.some.inj (hcj.symm.trans hci)) hji
    · by_cases hji : j = i
      · subst hji; rw [setPhase_self] at hj; simp at hj
      · exact h2 j (by rwa [setPhase_of_ne _ _ hji] at hj)
    · by_cases hji : j = i
      · subst hji
        rcases h3 j hj with hcs | hmm
        · rw [hp] at hcs; simp at hcs
        · exact Or.inr hmm
      · rw [setPhase_of_ne _ _ hji]; exact h3 j hj

theorem cInv_of_reachable {n : Nat} {replica : Option Nat} {vals : Fin n → Nat}
    {m0 : Option Nat} {s : CState n}
    (h : CReachable replica vals (cInit n m0) s) : CInv s := by
  induction h with
  | refl => exact cInv_cInit n m0
  | step hr hs ih => exact cInv_preserved hs ih

/-- C1: across cooperating processes sharing one authoritative store and all
running cacheAsideFunc on the same key, the populate function is invoked at
most once while its result is absent from the authoritative store, and after
the first successful population no further invocation occurs for that key
within the TTL window: in every reachable state of the interleaving model at
most one process has ever invoked the populate function, and a process at the
invocation point always sees the key absent. The model covers one TTL window
of the populated entry with the lease heartbeat keeping the lease alive, the
premises under which the spec states the guarantee. -/
theorem c1_exactly_once_population {n : Nat} (replica : Option Nat)
    (vals : Fin n → Nat) (m0 : Option Nat) (s : CState n)
    (h : CReachable replica vals (cInit n m0) s) :
    (∀ i j, s.invoked i = true → s.invoked j = true → i = j) ∧
    (∀ i, s.phase i = Phase.critPopulate → s.master = none) := by
  have hinv := cInv_of_reachable h
  exact ⟨hinv.2.2.2, fun i hi => hinv.2.1 i (Or.inl hi)⟩

/-- Witness for C1: along the concrete two-process trace in which process 0
misses the replica, acquires the lease and re-reads a miss, the key is indeed
still absent at the invocation point. -/
theorem c1_exactly_once_population_witness : c1S3.master = none :=
  (c1_exactly_once_population none (fun _ => 7) none c1S3
    (CReachable.step (CReachable.step (CReachable.step CReachable.refl
      (CStep.replicaMiss c1S0 0 rfl rfl))
      (CStep.aquireOk c1S1 0 (by decide) rfl))
      (CStep.critMiss c1S2 0 (by decide) rfl))).2 0 (by decide)

/-- C2: the get-or-set body that getOrSetWithWithPessimisticLock runs under
the lease first re-reads the key from the authoritative handle; a non-null
value is returned without invoking the populate function and without writing,
otherwise the populate function is invoked, its result written with the given
TTL, and that result returned. -/
theorem c2_get_or_set_under_lease {B V : Type} (m : V → B) (um : Option B → Option V)
    (st : DataStore B) (key : Key) (populateVal : V) (ttlMs : Nat) :
    (∀ v, redisGet um st key = some v →
      getOrSet m um st key populateVal ttlMs =
        { value := v, store := st, invokedPopulate := false }) ∧
    (redisGet um st key = none →
      getOrSet m um st key populateVal ttlMs =
        { value := populateVal, store := redisSet m st key populateVal ttlMs,
          invokedPopulate := true }) := by
  constructor
  · intro v hv
    simp [getOrSet, hv]
  · intro hv
    simp [getOrSet, hv]

/-- Witness for C2: on a store holding 5 at key k the body returns 5 without
populating; on the empty store it populates with 9 and writes it. -/
theorem c2_get_or_set_under_lease_witness :
    getOrSet (fun v => v) (fun b => b) storeK5 "k" 9 100 =
      { value := 5, store := storeK5, invokedPopulate := false } ∧
    getOrSet (fun v => v) (fun b => b) storeEmptyNat "k" 9 100 =
      { value := 9, store := redisSet (fun v => v) storeEmptyNat "k" 9 100,
        invokedPopulate := true } :=
  ⟨(c2_get_or_set_under_lease (fun v => v) (fun b => b) storeK5 "k" 9 100).1 5 rfl,
   (c2_get_or_set_under_lease (fun v => v) (fun b => b) storeEmptyNat "k" 9 100).2 rfl⟩

/-- C3: a release() or extend() whose token does not match the stored lease
entry (including when no entry exists) throws its failure error and leaves the
lease entry untouched: same value, same TTL, nothing deleted. -/
theorem c3_lock_ownership (st : LockStore) (name secret : String) (ttlMs : Nat)
    (h : (st name).map LeaseEntry.secret ≠ some secret) :
    (simpleLockRelease st name secret).store = st ∧
    (simpleLockRelease st name secret).thrown = some "release failed" ∧
    (simpleLockExtend st name secret ttlMs).store = st ∧
    (simpleLockExtend st name secret ttlMs).thrown = some "extend failed" := by
  cases hst : st name with
  | none => simp [simpleLockRelease, simpleLockExtend, hst]
  | some entry =>
    have hne : entry.secret ≠ secret := by
      intro he
      exact h (by rw [hst]; simp [he])
    simp [simpleLockRelease, simpleLockExtend, hst, hne]

/-- Witness for C3: an intruder token can neither release nor extend the lease
held by owner1, and the store is unchanged. -/
theorem c3_lock_ownership_witness :
    (simpleLockRelease busyLockStore "simpleLock.res" "intruder").store = busyLockStore ∧
    (simpleLockRelease busyLockStore "simpleLock.res" "intruder").thrown =
      some "release failed" ∧
    (simpleLockExtend busyLockStore "simpleLock.res" "intruder" 99).store = busyLockStore ∧
    (simpleLockExtend busyLockStore "simpleLock.res" "intruder" 99).thrown =
      some "extend failed" :=
  c3_lock_ownership busyLockStore "simpleLock.res" "intruder" 99 (by decide)

theorem tryAux_const_error {E A : Type} (op : Nat → Except E A) (allowed : E → Bool)
    (jitter : Nat → Nat) (maxTimeMs : Nat) (e : E) (hop : ∀ k, op k = .error e) :
    ∀ fuel attempt elapsed,
      tryWithBackoffRetryAux op allowed jitter maxTimeMs attempt elapsed fuel = .error e := by
  intro fuel
  induction fuel with
  | zero =>
    intro attempt elapsed
    unfold tryWithBackoffRetryAux
    rw [hop attempt]
    simp
  | succ fuel2 ih =>
    intro attempt elapsed
    unfold tryWithBackoffRetryAux
    rw [hop attempt]
    simp [ih]

theorem tryAux_first_ok {E A : Type} (op : Nat → Except E A) (allowed : E → Bool)
    (jitter : Nat → Nat) (maxTimeMs attempt elapsed fuel : Nat) (a : A)
    (h : op attempt = .ok a) :
    tryWithBackoffRetryAux op allowed jitter maxTimeMs attempt elapsed fuel = .ok a := by
  unfold tryWithBackoffRetryAux
  rw [h]

/-- C4: simpleLock.aquire attempts an atomic set-if-not-present-with-TTL under
the fresh owner token; an attempt against an existing lock entry fails with the
AquireLockError kind, which is exactly the kind the backoff retry repeats
within the retryTimeoutMs budget (other errors are not retried, by the filter);
if the lock stays held by another owner through every attempt, aquire
surfaces that timeout as the final AquireLockError; on a free lock the set
succeeds and aquire returns a handle exposing release() and extend(ttl) bound
to the lock key and the token. -/
theorem c4_aquire_protocol (retryTimeoutMs : Nat) (stores : Nat → LockStore)
    (name secret : String) (ttlMs : Nat) (jitter : Nat → Nat) (msg : String) :
    (aquireIsAllowed (JsError.aquireLockError msg) = true ∧
     aquireIsAllowed (JsError.otherError msg) = false) ∧
    (∀ st : LockStore, (st (lockName name)).isSome = true →
      trySet st (lockName name) secret ttlMs =
        .error (.aquireLockError "aquire failed")) ∧
    ((∀ k, ((stores k) (lockName name)).isSome = true) →
      simpleLockAquire retryTimeoutMs stores name secret ttlMs jitter =
        .error (.aquireLockError "aquire failed")) ∧
    ((stores 0) (lockName name) = none →
      simpleLockAquire retryTimeoutMs stores name secret ttlMs jitter =
        .ok (update (stores 0) (lockName name) (some { secret := secret, ttlMs := ttlMs }),
             { release := fun st => simpleLockRelease st (lockName name) secret,
               extend := fun t st => simpleLockExtend st (lockName name) secret t })) := by
  refine ⟨⟨rfl, rfl⟩, ?_, ?_, ?_⟩
  · intro st hsome
    cases hst : st (lockName name) with
    | none => rw [hst] at hsome; simp at hsome
    | some entry => simp [trySet, hst]
  · intro hbusy
    have hop : ∀ k, trySet (stores k) (lockName name) secret ttlMs =
        Except.error (JsError.aquireLockError "aquire failed") := by
      intro k
      cases hst : (stores k) (lockName name) with
      | none => have := hbusy k; rw [hst] at this; simp at this
      | some entry => simp [trySet, hst]
    have hconst := tryAux_const_error
      (fun k => trySet (stores k) (lockName name) secret ttlMs)
      aquireIsAllowed jitter retryTimeoutMs
      (JsError.aquireLockError "aquire failed") hop (retryTimeoutMs + 1) 0 0
    simp [simpleLockAquire, tryWithBackoffRetry, hconst, Except.map]
  · intro hfree
    have hok : trySet (stores 0) (lockName name) secret ttlMs =
        Except.ok (update (stores 0) (lockName name)
          (some { secret := secret, ttlMs := ttlMs })) := by
      simp [trySet, hfree]
    have hfirst := tryAux_first_ok
      (fun k => trySet (stores k) (lockName name) secret ttlMs)
      aquireIsAllowed jitter retryTimeoutMs 0 0 (retryTimeoutMs + 1) _ hok
    simp [simpleLockAquire, tryWithBackoffRetry, hfirst, Except.map]

/-- Witness for C4: against a permanently held lock the acquisition surfaces
the AquireLockError after the retry budget; against a free lock it succeeds
with the handle bound to the prefixed lock key and the fresh token. -/
theorem c4_aquire_protocol_witness :
    simpleLockAquire 250 (fun _ => busyLockStore) "res" "tok" 50 (fun _ => 0) =
      .error (.aquireLockError "aquire failed") ∧
    simpleLockAquire 250 (fun _ => freeLockStore) "res" "tok" 50 (fun _ => 0) =
      .ok (update freeLockStore (lockName "res") (some { secret := "tok", ttlMs := 50 }),
           { release := fun st => simpleLockRelease st (lockName "res") "tok",
             extend := fun t st => simpleLockExtend st (lockName "res") "tok" t }) :=
  ⟨(c4_aquire_protocol 250 (fun _ => busyLockStore) "res" "tok" 50 (fun _ => 0) "m").2.2.1
     (fun _ => rfl),
   (c4_aquire_protocol 250 (fun _ => freeLockStore) "res" "tok" 50 (fun _ => 0) "m").2.2.2
     rfl⟩

/-- C5: when the key is present (non-null after unmarshalling) on the replica
handle, cacheAsideFunc returns that value at once, writes nothing to the
authoritative store, touches no lock entry, and never invokes the populate
function. -/
theorem c5_replica_short_circuit {B V : Type} (m : V → B) (um : Option B → Option V)
    (replica master : DataStore B) (lockStores : Nat → LockStore) (key : Key)
    (populateVal : V) (ttlMs retryTimeoutMs : Nat) (secret : String)
    (jitter : Nat → Nat) (lockTimeMs : Nat) (v : V)
    (h : redisGet um replica key = some v) :
    cacheAsideFunc m um replica master lockStores key populateVal ttlMs
        retryTimeoutMs secret jitter lockTimeMs =
      { result := .ok v, master := master, lockStore := lockStores 0,
        populateInvocations := 0 } := by
  simp [cacheAsideFunc, h]

/-- Witness for C5: with 5 cached at key k on the replica, the call returns 5
and both the authoritative store and the (contended) lock store are exactly as
before, with zero populate invocations. -/
theorem c5_replica_short_circuit_witness :
    cacheAsideFunc (fun v => v) (fun b => b) storeK5 storeEmptyNat
        (fun _ => busyLockStore) "k" 9 100 250 "tok" (fun _ => 0) 50 =
      { result := .ok 5, master := storeEmptyNat, lockStore := busyLockStore,
        populateInvocations := 0 } :=
  c5_replica_short_circuit (fun v => v) (fun b => b) storeK5 storeEmptyNat
    (fun _ => busyLockStore) "k" 9 100 250 "tok" (fun _ => 0) 50 5 rfl

theorem inAppCalls_hit (s : InAppState) (key : Key) (h0 : Nat)
    (h : s.cache key = some h0) :
    ∀ nCalls, inAppCalls s key nCalls = (List.replicate nCalls h0, s) := by
  have hcall : inAppCacheAside s key = (h0, s) := by
    simp [inAppCacheAside, inAppCacheAsideGen, h]
  intro nCalls
  induction nCalls with
  | zero => rfl
  | succ k ih => simp [inAppCalls, hcall, ih, List.replicate_succ]

/-- C6: on a local miss, the in-process read-through stores the handle
returned by computeFn before the underlying computation completes, so a run of
same-process calls for that key arriving before completion all receive that
one in-flight handle and computeFn is invoked exactly once; on a local hit the
cached (possibly still pending) handle is returned and computeFn is not
invoked. -/
theorem c6_local_thundering_herd (key : Key) :
    (∀ s : InAppState, s.cache key = none → ∀ nMore,
      inAppCalls s key (nMore + 1) =
        (List.replicate (nMore + 1) s.nextHandle,
         { cache := update s.cache key (some s.nextHandle),
           nextHandle := s.nextHandle + 1,
           computeInvocations := s.computeInvocations + 1 })) ∧
    (∀ (s : InAppState) (h0 : Nat), s.cache key = some h0 →
      inAppCacheAside s key = (h0, s)) := by
  constructor
  · intro s hmiss nMore
    have hcall : inAppCacheAside s key =
        (s.nextHandle,
         { cache := update s.cache key (some s.nextHandle),
           nextHandle := s.nextHandle + 1,
           computeInvocations := s.computeInvocations + 1 }) := by
      simp [inAppCacheAside, inAppCacheAsideGen, hmiss]
    have hhit : (update s.cache key (some s.nextHandle)) key = some s.nextHandle := by
      simp [update]
    have hrest := inAppCalls_hit
      { cache := update s.cache key (some s.nextHandle),
        nextHandle := s.nextHandle + 1,
        computeInvocations := s.computeInvocations + 1 }
      key s.nextHandle hhit nMore
    simp [inAppCalls, hcall, hrest, List.replicate_succ]
  · intro s h0 hhit
    simp [inAppCacheAside, inAppCacheAsideGen, hhit]

/-- Witness for C6: three back-to-back calls on the empty local cache all
return handle 0 with a single computeFn invocation; a call on a cache already
holding handle 5 returns it and changes nothing. -/
theorem c6_local_thundering_herd_witness :
    inAppCalls emptyInApp "k" 3 =
      (List.replicate 3 0,
       { cache := update emptyInApp.cache "k" (some 0),
         nextHandle := 1, computeInvocations := 1 }) ∧
    inAppCacheAside inAppWithK5 "k" = (5, inAppWithK5) :=
  ⟨(c6_local_thundering_herd "k").1 emptyInApp rfl 2,
   (c6_local_thundering_herd "k").2 inAppWithK5 5 rfl⟩

/-- C7: whatever the populate outcome (success or error), after a successful
acquisition wrapWithPessimisticSimpleLock clears the renewal interval and then
issues release() in its finally block, the release() runs against whatever the
lock store is at that moment (its failure is swallowed: the caller result does
not depend on it), and the populate outcome itself is propagated unchanged. -/
theorem c7_cleanup_and_propagation {V : Type} (acquired : LockStore × LockHandle)
    (bodyOutcome : Except JsError V) (lockAtExit : LockStore) :
    (wrapWithPessimisticSimpleLock (.ok acquired) bodyOutcome lockAtExit).result =
      bodyOutcome ∧
    (wrapWithPessimisticSimpleLock (.ok acquired) bodyOutcome lockAtExit).events =
      [LockEv.aquired, LockEv.tickStarted, LockEv.tickStopped, LockEv.releaseIssued] ∧
    (wrapWithPessimisticSimpleLock (.ok acquired) bodyOutcome lockAtExit).lockStore =
      (acquired.2.release lockAtExit).store := by
  refine ⟨?_, ?_, ?_⟩ <;> cases acquired <;> rfl

/-- C8: in the optimistic populate path, when the key is absent and another
writer changed the watched key before the commit, the transaction is rejected
and the call fails with the conflict error, with nothing written by this call
and no internal retry; and when the key is already present at the initial
read, it is unwatched and returned without invoking the populate function. -/
theorem c8_optimistic_conflict {B V : Type} (m : V → B) (um : Option B → Option V)
    (st : DataStore B) (key : Key) (populateVal : V) (ttlMs : Nat) :
    (redisGet um st key = none →
      getOrSetWithOptimisticLock m um st key populateVal ttlMs true =
        { result := .error "One (or more) of the watched keys has been changed",
          store := st, invokedPopulate := true, unwatched := true }) ∧
    (∀ v, redisGet um st key = some v → ∀ changed,
      getOrSetWithOptimisticLock m um st key populateVal ttlMs changed =
        { result := .ok v, store := st, invokedPopulate := false,
          unwatched := true }) := by
  constructor
  · intro h
    simp [getOrSetWithOptimisticLock, h]
  · intro v hv changed
    simp [getOrSetWithOptimisticLock, hv]

/-- Witness for C8: on the empty store a concurrent change makes the call fail
with the conflict message and write nothing; on a store holding 5 at key k the
call returns 5 without invoking the populate function. -/
theorem c8_optimistic_conflict_witness :
    getOrSetWithOptimisticLock (fun v => v) (fun b => b) storeEmptyNat "k" 9 100 true =
      { result := .error "One (or more) of the watched keys has been changed",
        store := storeEmptyNat, invokedPopulate := true, unwatched := true } ∧
    getOrSetWithOptimisticLock (fun v => v) (fun b => b) storeK5 "k" 9 100 true =
      { result := .ok 5, store := storeK5, invokedPopulate := false,
        unwatched := true } :=
  ⟨(c8_optimistic_conflict (fun v => v) (fun b => b) storeEmptyNat "k" 9 100).1 rfl,
   (c8_optimistic_conflict (fun v => v) (fun b => b) storeK5 "k" 9 100).2 5 rfl true⟩

/-- C9: the two shipped redisCacheOnlyReadThrough variants diverge at the same
input. The stores/index.js variant never applies the closure returned by
redisCacheReadThrough: on key k with an orchestrator resolving to 42 it hands
the caller the bare closure, runs the orchestrator zero times, and evicts the
key anyway. The variant shipped next to msgpackSnappyMarsh applies it: it runs
the orchestrator once, evicts the key from the local cache (the final store
maps k to none), and returns the resolved value 42 — which is what the claim
describes. -/
theorem c9_remote_only_divergence :
    redisCacheOnlyReadThroughLegacy storeEmptyLocal "k" 42 =
      (JsResult.closure, update storeEmptyLocal "k" none, 0) ∧
    redisCacheOnlyReadThroughCurrent storeEmptyLocal "k" 42 =
      (42, update (update storeEmptyLocal "k" (some 42)) "k" none, 1) ∧
    (update (update storeEmptyLocal "k" (some 42)) "k" none) "k" = none := by
  refine ⟨rfl, rfl, ?_⟩
  simp [update]

/-- C10: when the handle cached for a key turns out to be a promise that
rejects, the rejection leaves the local cache untouched: the rejected handle
stays cached, and every later same-process call before TTL expiry or eviction
returns that same rejected handle without invoking computeFn again. -/
theorem c10_negative_caching (w : InAppWorld) (key : Key) (hid : Nat)
    (h : w.st.cache key = some hid) :
    (rejectHandle w hid).st = w.st ∧
    (rejectHandle w hid).status hid = HandleStatus.rejected ∧
    (∀ nCalls, inAppCalls (rejectHandle w hid).st key nCalls =
      (List.replicate nCalls hid, (rejectHandle w hid).st)) := by
  refine ⟨rfl, by simp [rejectHandle], ?_⟩
  intro nCalls
  exact inAppCalls_hit w.st key hid h nCalls

/-- Witness for C10: with handle 5 cached at key k and its promise rejected,
two subsequent calls both return handle 5 and the cache state is unchanged. -/
theorem c10_negative_caching_witness :
    (rejectHandle worldK5 5).st = worldK5.st ∧
    (rejectHandle worldK5 5).status 5 = HandleStatus.rejected ∧
    inAppCalls (rejectHandle worldK5 5).st "k" 2 =
      (List.replicate 2 5, (rejectHandle worldK5 5).st) :=
  ⟨(c10_negative_caching worldK5 "k" 5 rfl).1,
   (c10_negative_caching worldK5 "k" 5 rfl).2.1,
   (c10_negative_caching worldK5 "k" 5 rfl).2.2 2⟩

end AhaKit
